import Mathlib

/-!
# Verification of the brev code-server port-proxy core

This file gives a shallow embedding, in Lean 4, of the host-based
reverse-proxy gateway of the repository:

* `src/node/publicPort.ts` — the `PublicPorts` class: the manifest parser,
  the tracked-document set maintained by the chokidar watcher callbacks
  (`putFile` / `deleteFile`), and the merged port directory
  (`mergePortFiles`, `portFileToPorts`, `getPublicPorts`, `getPublicPort`).
* the proxy router module (`maybeProxy`, the `router.all` HTTP handler and
  the `wsRouter.ws` WebSocket handler).

Conventions of the embedding:

* JavaScript objects used as string-keyed dictionaries are modelled as
  insertion-ordered association lists (`List (String × α)`); property
  assignment replaces the value in place when the key exists and appends
  otherwise, matching JS property-order semantics for non-integer keys.
* Exceptions thrown by the TypeScript code are modelled with `Except`.
* The result of `yaml.load` on the raw file bytes is modelled by a value of
  type `Except String Yaml` (`.error` models a thrown YAML syntax error);
  `yaml.load` itself is an external library and is deterministic in the
  file contents, so watcher callbacks are parameterised by this value.
* The joi schema validation of `portFileSchema` is modelled faithfully for
  all inputs expressible as `Yaml` values.
* The merged directory is a plain `{}`-prototyped JS object, so the bracket
  read `ports[portOrAlias]` consults the prototype chain: a token naming an
  `Object.prototype` member (`constructor`, `toString`, ...) reads a
  non-`undefined` inherited value even when declared in no manifest.  The
  read is modelled by `jsIndexRead` over `JsValue` (own validated string, or
  inherited prototype member).
-/

/-- A YAML value as produced by `yaml.load` (excluding `undefined`, which
only arises for empty documents and is not needed by any theorem below). -/
inductive Yaml where
  | nullv : Yaml
  | str : String → Yaml
  | boolv : Bool → Yaml
  | num : Int → Yaml
  | seq : List Yaml → Yaml
  | map : List (String × Yaml) → Yaml

/-- The runtime shape of a validated ports file.  The TypeScript interface
declares `ports: PortOrPortMapping[]`, but at runtime the joi schema
`joi.object({ version: joi.string(), ports: joi.array().items(joi.string()) })`
accepts an object with the `ports` key absent, so the stored value may lack
the `ports` array; we record that possibility with `Option`. -/
structure PortFile where
  version : Option String
  ports : Option (List String)
deriving DecidableEq, Repr

/-- The mutable state of the `PublicPorts` class: the tracked-document set
`portFiles` (a JS object keyed by relative path, in insertion order) and
`searchPath` (set by `startWatch`, initially `undefined`). -/
structure PublicPorts where
  portFiles : List (String × PortFile)
  searchPath : Option String
deriving DecidableEq, Repr

/-- Errors thrown by `PublicPorts.getPublicPorts`:
`searchPathNotDefined` models `throw new Error("searchPath not defined -- startWatch not yet called")`,
and `typeError` models the TypeError raised by `currValue.ports.forEach`
when a stored document has no `ports` array. -/
inductive PortsError where
  | searchPathNotDefined : PortsError
  | typeError : PortsError
deriving DecidableEq, Repr

/-- JS object property assignment `obj[k] = v`: replace in place when the
key is present, append otherwise. -/
def objAssign (l : List (String × α)) (k : String) (v : α) : List (String × α) :=
  if l.any (fun kv => kv.1 == k) then
    l.map (fun kv => if kv.1 == k then (k, v) else kv)
  else
    l ++ [(k, v)]

/-- JS `delete obj[k]`. -/
def objDelete (l : List (String × α)) (k : String) : List (String × α) :=
  l.filter (fun kv => kv.1 != k)

/-- A value produced by the bracket read `ports[portOrAlias]` on the merged
directory object.  The directory is built by `reduce` from the object
literal `{}`, whose prototype is `Object.prototype`, so the read yields
either an own property (always a validated string) or a member inherited
from `Object.prototype` (a function or object — never a string, never
`undefined`). -/
inductive JsValue where
  | str : String → JsValue
  | protoMember : String → JsValue
deriving DecidableEq, Repr

/-- The property names a `{}`-prototyped object inherits from
`Object.prototype`: a bracket read of any of these returns a
non-`undefined` value even on an object with no own properties. -/
def objectPrototypeKeys : List String :=
  ["constructor", "hasOwnProperty", "isPrototypeOf", "propertyIsEnumerable",
   "toLocaleString", "toString", "valueOf", "__defineGetter__",
   "__defineSetter__", "__lookupGetter__", "__lookupSetter__", "__proto__"]

/-- The JS bracket read `obj[k]` on a `{}`-prototyped object whose own
properties are the string-valued entries of `l`: an own property wins;
otherwise the prototype chain is consulted, and a key naming an
`Object.prototype` member yields that inherited member; only then is the
result `undefined` (`none`). -/
def jsIndexRead (l : List (String × String)) (k : String) : Option JsValue :=
  match List.lookup k l with
  | some v => some (.str v)
  | none =>
    if objectPrototypeKeys.contains k then some (.protoMember k) else none

/-- The digit-string test `^[0-9]+$` of `validatePort` applied to a
directory read result: an inherited `Object.prototype` member is not a
digit string (it is not a string at all). -/
def isDigitStringValue : JsValue → Bool
  | .str s => !s.data.isEmpty && s.data.all Char.isDigit
  | .protoMember _ => false

/-- JS `s.split(sep)` for a one-character separator (the only kind the
source uses), via the character list of the string. -/
def jsSplit (s : String) (sep : Char) : List String :=
  (s.data.splitOn sep).map String.mk

/-- JS `parts.join(sep)` for a one-character separator. -/
def jsJoin (parts : List String) (sep : Char) : String :=
  String.mk (List.intercalate [sep] (parts.map String.data))

/-- Boolean prefix test on character lists. -/
def listIsPrefixB : List Char → List Char → Bool
  | [], _ => true
  | _ :: _, [] => false
  | a :: as, b :: bs => a == b && listIsPrefixB as bs

/-- JS `s.startsWith(pre)`. -/
def strStartsWithB (s pre : String) : Bool :=
  listIsPrefixB pre.data s.data

/-- JS `s.endsWith(suf)`. -/
def strEndsWithB (s suf : String) : Bool :=
  listIsPrefixB suf.data.reverse s.data.reverse

namespace PublicPorts

/-- The fresh instance `new PublicPorts()`: empty tracked set, no search
path yet. -/
def init : PublicPorts := { portFiles := [], searchPath := none }

/-- `validatePort` (publicPort.ts:121-128): the regex test `^[0-9]+$`
(the `i` flag is irrelevant for digits). -/
def validatePort (port : String) : Option String :=
  if !port.data.isEmpty && port.data.all Char.isDigit then some port else none

/-- `validatePortOrAlias` (publicPort.ts:129-136): the regex test
`^[a-z0-9]+$` (lowercase letters and digits only). -/
def validatePortOrAlias (portOrAlias : String) : Option String :=
  if !portOrAlias.data.isEmpty &&
      portOrAlias.data.all (fun c => c.isDigit || ('a' ≤ c && c ≤ 'z')) then
    some portOrAlias
  else
    none

/-- `parsePortOrPortMapping` (publicPort.ts:97-119).  An entry containing
`:` is split on `:`; element 0 must validate as a port-or-alias, element 1
as a port (extra elements after a second `:` are ignored by the source).
An entry without `:` must validate as a port and self-maps. -/
def parsePortOrPortMapping (portOrMapping : String) : Option (String × String) :=
  if portOrMapping.data.contains ':' then
    match jsSplit portOrMapping ':' with
    | a :: p :: _ =>
      match validatePortOrAlias a with
      | none => none
      | some portOrAlias =>
        match validatePort p with
        | none => none
        | some port => some (portOrAlias, port)
    | _ => none
  else
    match validatePort portOrMapping with
    | none => none
    | some port => some (port, port)

/-- The inner loop of `mergePortFiles` (publicPort.ts:73-77): push each of
`ps` onto `acc` unless already included (`Array.includes`, exact string
equality). -/
def dedupAppend (acc : List String) (ps : List String) : List String :=
  ps.foldl (fun a p => if a.contains p then a else a ++ [p]) acc

/-- `mergePortFiles` (publicPort.ts:70-84): reduce over `Object.values(this.portFiles)`
starting from `{ ports: [] }`.  The source accesses `currValue.ports.forEach`
without a guard, so a stored document whose `ports` field is absent raises a
TypeError, which we surface as `.error .typeError`. -/
def mergePortFiles (files : List PortFile) : Except PortsError (List String) :=
  files.foldlM
    (fun acc pf =>
      match pf.ports with
      | none => .error .typeError
      | some ps => .ok (dedupAppend acc ps))
    []

/-- The body of the `portFileToPorts` reducer (publicPort.ts:87-94): parse
the entry, skip it when invalid, otherwise assign
`acc[mapping[0]] = mapping[1]`. -/
def portAssignStep (acc : List (String × String)) (s : String) : List (String × String) :=
  match parsePortOrPortMapping s with
  | none => acc
  | some kv => objAssign acc kv.1 kv.2

/-- `portFileToPorts` (publicPort.ts:86-95) applied to the merged file,
whose `ports` array is always present: reduce each entry through
`parsePortOrPortMapping`, skipping invalid entries, assigning
`acc[mapping[0]] = mapping[1]` (later assignments overwrite earlier). -/
def portFileToPorts (ports : List String) : List (String × String) :=
  ports.foldl portAssignStep []

/-- `getPublicPorts` (publicPort.ts:62-68): throws when `searchPath` is
undefined (i.e. `startWatch` has never been called), otherwise merges the
tracked files and converts the merged file to the directory mapping. -/
def getPublicPorts (st : PublicPorts) : Except PortsError (List (String × String)) :=
  match st.searchPath with
  | none => .error .searchPathNotDefined
  | some _ => (mergePortFiles (st.portFiles.map (fun kv => kv.2))).map portFileToPorts

/-- `getPublicPort` (publicPort.ts:53-60): the bracket read
`ports[portOrAlias]` when it is not `undefined`, else `null`.  The own-key
lookup is exact (case-sensitive) string equality, and — because `ports` is
a `{}`-prototyped object — a token naming an `Object.prototype` member
reads the inherited member (`jsIndexRead`).  Exceptions from
`getPublicPorts` propagate. -/
def getPublicPort (st : PublicPorts) (portOrAlias : String) :
    Except PortsError (Option JsValue) :=
  (getPublicPorts st).map (fun ports => jsIndexRead ports portOrAlias)

/-- The glob segment pattern `ports.y*ml` of the default `portsGlob`
`**/.brev/ports.y*ml`: literal prefix `ports.y`, a `*` matching any
(possibly empty) run of non-separator characters, literal suffix `ml`.
The bound `9 ≤ length` makes the prefix and suffix non-overlapping, so the
three conditions are exactly the existence of such a decomposition. -/
def matchesSegGlob (fileName : String) : Bool :=
  strStartsWithB fileName "ports.y" && strEndsWithB fileName "ml" && 9 ≤ fileName.length

/-- `didMatchGlob` (publicPort.ts:159-162): `picomatch("**/.brev/ports.y*ml")`
applied to the relative path.  `**/` matches zero or more leading path
segments (none empty, and none starting with `.` since picomatch's default
leaves dotfiles unmatched by wildcards); then a literal `.brev` segment;
then a file name matching `ports.y*ml`. -/
def didMatchGlob (relPath : String) : Bool :=
  match (jsSplit relPath '/').reverse with
  | fileName :: dirName :: rest =>
    matchesSegGlob fileName && dirName == ".brev" &&
      rest.all (fun seg => !seg.data.isEmpty && !strStartsWithB seg ".")
  | _ => false

/-- The joi validation `portFileSchema.validate(yamlData)` (publicPort.ts:11-14,
175-181) modelled over `Yaml` values; `none` models `res.error !== undefined`.
joi defaults: the input must be an object; unknown keys are rejected;
`version`, when present, must be a non-empty string (joi strings reject `""`
by default); `ports`, when present, must be an array whose items are
non-empty strings (`ports: null` and wrong types are errors); both keys are
optional, and a missing `ports` key validates to a document with no `ports`
array.  `validatePortItem` checks one item of the `ports` array against
`joi.string()`: it must be a YAML string and (by joi's default) non-empty. -/
def validatePortItem : Yaml → Option String
  | .str s => if s.isEmpty then none else some s
  | _ => none

/-- See `validatePortItem` above: the whole-document joi validation. -/
def validatePortFile : Yaml → Option PortFile
  | .map kvs =>
    if kvs.any (fun kv => kv.1 != "version" && kv.1 != "ports") then none
    else
      match kvs.lookup "version", kvs.lookup "ports" with
      | some (.str v), some (.seq xs) =>
        if v.isEmpty then none
        else
          (xs.mapM validatePortItem).map (fun ps => { version := some v, ports := some ps })
      | some (.str v), none =>
        if v.isEmpty then none else some { version := some v, ports := none }
      | none, some (.seq xs) =>
        (xs.mapM validatePortItem).map (fun ps => { version := none, ports := some ps })
      | none, none => some { version := none, ports := none }
      | _, _ => none
  | _ => none

/-- `getPublicPortsFromFile` (publicPort.ts:164-182) as a function of the
`yaml.load` outcome on the file bytes: a thrown YAML syntax error returns
`null`; a schema-validation error returns `null`; otherwise the validated
document is returned. -/
def getPublicPortsFromFile (loadResult : Except String Yaml) : Option PortFile :=
  match loadResult with
  | .error _ => none
  | .ok y => validatePortFile y

/-- `putFile` (publicPort.ts:138-149), the add/change watcher callback: a
path not matching the glob is ignored; a `null` parse (malformed file) is
logged and the tracked set is left unchanged (so the path's previous
document, if any, is retained); otherwise the parsed document replaces the
slot for that relative path. -/
def putFile (relPath : String) (loadResult : Except String Yaml) (st : PublicPorts) :
    PublicPorts :=
  if !didMatchGlob relPath then st
  else
    match getPublicPortsFromFile loadResult with
    | none => st
    | some pf => { st with portFiles := objAssign st.portFiles relPath pf }

/-- `deleteFile` (publicPort.ts:151-157), the unlink watcher callback. -/
def deleteFile (relPath : String) (st : PublicPorts) : PublicPorts :=
  if !didMatchGlob relPath then st
  else { st with portFiles := objDelete st.portFiles relPath }

/-- `startWatch` (publicPort.ts:39-51): records the search path (the
chokidar side effects are delivered to the state through the
`putFile`/`deleteFile` callbacks, modelled as events below). -/
def startWatch (searchPath : String) (st : PublicPorts) : PublicPorts :=
  { st with searchPath := some searchPath }

end PublicPorts

/-- A watcher/lifecycle event as delivered to a `PublicPorts` instance:
`startWatch`, or one of the chokidar callbacks registered by it
(`add` and `change` both invoke `putFile`; `unlink` invokes `deleteFile`). -/
inductive WatchEvent where
  | startWatch : String → WatchEvent
  | add : String → Except String Yaml → WatchEvent
  | change : String → Except String Yaml → WatchEvent
  | unlink : String → WatchEvent

/-- Discriminator for `WatchEvent.startWatch`. -/
def WatchEvent.isStartWatch : WatchEvent → Bool
  | .startWatch _ => true
  | _ => false

/-- Apply one event to the state. -/
def applyEvent (st : PublicPorts) : WatchEvent → PublicPorts
  | .startWatch sp => PublicPorts.startWatch sp st
  | .add rp lr => PublicPorts.putFile rp lr st
  | .change rp lr => PublicPorts.putFile rp lr st
  | .unlink rp => PublicPorts.deleteFile rp st

/-- Apply a sequence of events to the state, oldest first. -/
def applyEvents (evs : List WatchEvent) (st : PublicPorts) : PublicPorts :=
  evs.foldl applyEvent st

/-! ## The proxy router (the `router.all` and `wsRouter.ws` handlers) -/

/-- Substring occurrence test on character lists (used to build the JS
`String.prototype.includes` model). -/
def listIsInfixB (needle : List Char) : List Char → Bool
  | [] => listIsPrefixB needle []
  | c :: rest => listIsPrefixB needle (c :: rest) || listIsInfixB needle rest

/-- JS `s.includes(sub)`: `sub` occurs as a contiguous substring of `s`. -/
def jsIncludes (s sub : String) : Bool :=
  listIsInfixB sub.data s.data

/-- The fields of the Express request consulted by the router module:
`req.headers.host` and `req.headers.accept` (possibly absent),
`req.path`, `req.baseUrl`, `req.originalUrl`, `req.method`, and the two
configuration arguments `req.args["proxy-port-separator"]` and
`req.args["proxy-domain"]`. -/
structure Req where
  host : Option String
  path : String
  baseUrl : String
  originalUrl : String
  method : String
  accept : Option String
  proxyPortSeparator : String
  proxyDomain : List String
deriving DecidableEq, Repr

/-- `maybeProxy` (router module): take the host header (or `""`), strip
everything from the first `:` on, split on the configured separator
(`"-"` when the separator argument is `"dash"`, else `"."`), shift off the
first segment as the candidate port, and require the rejoined remaining
segments to be exactly one of the configured proxy domains; an empty
candidate or a non-matching domain yields no proxy. -/
def maybeProxy (req : Req) : Option String :=
  let host := req.host.getD ""
  let domain := (jsSplit host ':').headD ""
  let separator := if req.proxyPortSeparator == "dash" then '-' else '.'
  let parts := jsSplit domain separator
  let port := parts.headD ""
  let proxyDomain := jsJoin parts.tail separator
  if port == "" || !req.proxyDomain.contains proxyDomain then none
  else some port

/-- The observable outcome of one run of a router handler:
`next` models `next()` (the request falls through to later handlers),
`redirect dest` models `redirect(req, res, "login", { to: dest })`,
`unauthorized` models `throw new HttpError("Unauthorized", HttpCode.Unauthorized)`,
and `proxyTo mappedPort originalUrl` models `proxy.web`/`proxy.ws` invoked
with target `` `http://0.0.0.0:${mappedPort}${req.originalUrl}` ``,
recording the two interpolands: the mapped port value (a validated string,
or a non-string inherited prototype member) and the original URL. -/
inductive RouteResult where
  | next : RouteResult
  | redirect : Option String → RouteResult
  | unauthorized : RouteResult
  | proxyTo : JsValue → String → RouteResult
deriving DecidableEq, Repr

/-- `req.headers.accept && req.headers.accept.includes("text/html")`
collapsed to its boolean value (an absent or empty accept header is falsy,
and the empty string contains no substring `"text/html"` anyway). -/
def acceptIncludesHtml (accept : Option String) : Bool :=
  match accept with
  | none => false
  | some a => jsIncludes a "text/html"

/-- The login-page test `/\/login\/?/.test(req.path)`: the regex is
unanchored and its trailing `\/?` is optional, so it matches exactly when
`"/login"` occurs anywhere in the path. -/
def loginPathTest (path : String) : Bool :=
  jsIncludes path "/login"

/-- The `router.all("*")` HTTP handler of the router module, as a function
of the `PublicPorts` state, the request, the opaque collaborator
`authenticated(req)`, and the opaque collaborator `normalize` from
`common/util` (passed as `norm`). -/
def handleHttp (st : PublicPorts) (req : Req) (isAuthenticated : Bool)
    (norm : String → String) : Except PortsError RouteResult :=
  match maybeProxy req with
  | none => .ok .next
  | some port =>
    match PublicPorts.getPublicPort st port with
    | .error e => .error e
    | .ok foundPublicPort =>
      let portIsPublic := foundPublicPort.isSome
      if !isAuthenticated && !portIsPublic then
        if strStartsWithB req.path "/static/" && req.method == "GET" then .ok .next
        else if acceptIncludesHtml req.accept then
          if loginPathTest req.path then .ok .next
          else
            let dest := norm (req.baseUrl ++ req.path)
            .ok (.redirect (if dest != "/" then some dest else none))
        else .ok .unauthorized
      else
        .ok (.proxyTo (foundPublicPort.getD (.str port)) req.originalUrl)

/-- The `wsRouter.ws("*")` WebSocket-upgrade handler of the router module. -/
def handleWs (st : PublicPorts) (req : Req) (isAuthenticated : Bool) :
    Except PortsError RouteResult :=
  match maybeProxy req with
  | none => .ok .next
  | some port =>
    match PublicPorts.getPublicPort st port with
    | .error e => .error e
    | .ok foundPublicPort =>
      let portIsPublic := foundPublicPort.isSome
      if !isAuthenticated && !portIsPublic then .ok .unauthorized
      else .ok (.proxyTo (foundPublicPort.getD (.str port)) req.originalUrl)

/-- The public-port determination feeding the authorization gate
(`const portIsPublic = foundPublicPort !== null` in both handlers). -/
def portIsPublicB (st : PublicPorts) (tok : String) : Except PortsError Bool :=
  (PublicPorts.getPublicPort st tok).map Option.isSome

/-- The authorization decision abstracted from the handler outcome:
falling through (`next`, used for login assets and the login page) and
forwarding both let the request pass (`allow`); the two blocking outcomes
are kept apart. -/
inductive GateDecision where
  | allow : GateDecision
  | redirectToLogin : Option String → GateDecision
  | rejectUnauthorized : GateDecision
deriving DecidableEq, Repr

/-- Map a handler outcome to its gate decision. -/
def decisionOf : RouteResult → GateDecision
  | .next => .allow
  | .proxyTo _ _ => .allow
  | .redirect dest => .redirectToLogin dest
  | .unauthorized => .rejectUnauthorized

/-- The authorization decision table exactly as the specification states
it (rows in order, first match wins): authenticated or public ⇒ allow;
unauthenticated GET of a static-asset path ⇒ allow; Accept containing
`text/html` ⇒ allow on a login path, otherwise redirect-to-login whose
target is the normalized request path, omitted exactly when it normalizes
to `/`; anything else ⇒ reject-unauthorized. -/
def gateSpec (isAuthenticated isPublic : Bool) (requestMethod requestPath : String)
    (acceptHeader : Option String) (norm : String → String) : GateDecision :=
  if isAuthenticated || isPublic then .allow
  else if strStartsWithB requestPath "/static/" && requestMethod == "GET" then .allow
  else if acceptIncludesHtml acceptHeader then
    if loginPathTest requestPath then .allow
    else
      let target := norm requestPath
      .redirectToLogin (if target == "/" then none else some target)
  else .rejectUnauthorized

deriving instance DecidableEq for Except

/-! ## Derived notions used to state the claims -/

namespace PublicPorts

/-- The pure value of the `mergePortFiles` fold in the non-throwing case:
concatenate every document's entry list, deduplicating exact-string
repeats, in tracked-set order. -/
def mergedPorts (files : List PortFile) : List String :=
  files.foldl (fun acc pf => dedupAppend acc (pf.ports.getD [])) []

/-- `entryDeclares tok e`: the raw manifest entry `e` parses successfully
and its key (the left-hand side inserted into the directory: the bare port
itself, or the alias of an `alias:port` mapping) is `tok`. -/
def entryDeclares (tok : String) (e : String) : Bool :=
  match parsePortOrPortMapping e with
  | some kv => kv.1 == tok
  | none => false

/-- `declaresToken pf tok`: some entry of the document `pf` declares `tok`
as a directory key. -/
def declaresToken (pf : PortFile) (tok : String) : Bool :=
  (pf.ports.getD []).any (entryDeclares tok)

end PublicPorts

/-! ## Concrete sample states and requests (used by witnesses and
counterexamples) -/

/-- A proxy request at the given host, with the remaining fields fixed to
representative values: separator `.`, allowed proxy domain `example.com`. -/
def sampleReq (host path method : String) (accept : Option String) : Req :=
  { host := some host
    path := path
    baseUrl := ""
    originalUrl := path
    method := method
    accept := accept
    proxyPortSeparator := "dot"
    proxyDomain := ["example.com"] }

/-- A started state tracking one manifest whose only entry is the alias
mapping `myserver:8080` — `myserver` occurs only as the alias (left-hand)
side, and `8080` occurs only as the target port. -/
def stateAliasOnly : PublicPorts :=
  PublicPorts.putFile ".brev/ports.yaml" (.ok (.map [("ports", .seq [.str "myserver:8080"])]))
    (PublicPorts.startWatch "w" PublicPorts.init)

/-- A started state tracking one manifest with the single bare port entry
`3000`. -/
def stateBare3000 : PublicPorts :=
  PublicPorts.putFile ".brev/ports.yaml" (.ok (.map [("ports", .seq [.str "3000"])]))
    (PublicPorts.startWatch "w" PublicPorts.init)

/-- A started state tracking two manifests that both map the alias
`myserver`, to different ports (`g`'s file first, then `f`'s). -/
def stateTwoFiles : PublicPorts :=
  PublicPorts.putFile "f/.brev/ports.yaml" (.ok (.map [("ports", .seq [.str "myserver:9999"])]))
    (PublicPorts.putFile "g/.brev/ports.yaml" (.ok (.map [("ports", .seq [.str "myserver:8888"])]))
      (PublicPorts.startWatch "w" PublicPorts.init))

/-- A started state with the bare port entry `99999` (beyond the 16-bit
port range) and the alias mapping `abc:1`. -/
def stateBigPort : PublicPorts :=
  PublicPorts.putFile ".brev/ports.yaml"
    (.ok (.map [("ports", .seq [.str "99999", .str "abc:1"])]))
    (PublicPorts.startWatch "w" PublicPorts.init)

/-! ## Association-list lemmas -/

theorem lookup_cons_eq {α : Type} (a k : String) (b : α) (es : List (String × α)) :
    List.lookup a ((k, b) :: es) = if a = k then some b else List.lookup a es := by
  by_cases h : a = k
  · simp [List.lookup, h]
  · simp only [List.lookup]
    have hb : (a == k) = false := beq_eq_false_iff_ne.mpr h
    simp [hb, h]

theorem lookup_map_replace {α : Type} (l : List (String × α)) (k : String) (v : α)
    (k' : String) :
    List.lookup k' (l.map (fun kv => if kv.1 == k then (k, v) else kv)) =
      if k' = k then (if l.any (fun kv => kv.1 == k) then some v else none)
      else List.lookup k' l := by
  simp only [beq_iff_eq]
  induction l with
  | nil => by_cases hk : k' = k <;> simp [hk]
  | cons hd tl ih =>
    obtain ⟨a, b⟩ := hd
    by_cases ha : a = k
    · subst ha
      by_cases hk' : k' = a
      · simp [lookup_cons_eq, hk']
      · simp [lookup_cons_eq, hk', ih]
    · have hb : (a == k) = false := beq_eq_false_iff_ne.mpr ha
      by_cases hk : k' = k
      · have hka : k ≠ a := fun h => ha h.symm
        simp only [hk] at ih
        simp only [List.map_cons, if_neg ha, List.any_cons, hb, Bool.false_or]
        rw [lookup_cons_eq]
        simp [hk, hka, ih]
      · by_cases hk' : k' = a
        · simp [lookup_cons_eq, if_neg ha, hk, hk', ha, hb]
        · simp [lookup_cons_eq, if_neg ha, hk, hk', ih, hb]

theorem lookup_append_single {α : Type} (l : List (String × α)) (k : String) (v : α)
    (k' : String) (h : ∀ kv ∈ l, kv.1 ≠ k) :
    List.lookup k' (l ++ [(k, v)]) = if k' = k then some v else List.lookup k' l := by
  induction l with
  | nil => by_cases hk : k' = k <;> simp [lookup_cons_eq, hk]
  | cons hd tl ih =>
    obtain ⟨a, b⟩ := hd
    have ha : a ≠ k := h (a, b) (by simp)
    have ih' := ih (fun kv hkv => h kv (List.mem_cons_of_mem _ hkv))
    by_cases hk : k' = k <;> by_cases hk' : k' = a <;>
      simp_all [lookup_cons_eq]

theorem objAssign_lookup {α : Type} (l : List (String × α)) (k : String) (v : α)
    (k' : String) :
    List.lookup k' (objAssign l k v) = if k' = k then some v else List.lookup k' l := by
  unfold objAssign
  by_cases hany : (l.any (fun kv => kv.1 == k)) = true
  · rw [if_pos hany, lookup_map_replace]
    by_cases hk : k' = k <;> simp [hk, hany]
  · rw [if_neg hany]
    apply lookup_append_single
    intro kv hkv heq
    exact hany (List.any_eq_true.mpr ⟨kv, hkv, beq_iff_eq.mpr heq⟩)

/-! ## Merge lemmas -/

theorem mem_dedupAppend (ps : List String) (acc : List String) (x : String) :
    x ∈ PublicPorts.dedupAppend acc ps ↔ x ∈ acc ∨ x ∈ ps := by
  induction ps generalizing acc with
  | nil => simp [PublicPorts.dedupAppend]
  | cons p ps ih =>
    unfold PublicPorts.dedupAppend at ih ⊢
    simp only [List.foldl_cons]
    rw [ih]
    by_cases hp : acc.contains p = true
    · have hmem : p ∈ acc := List.elem_iff.mp hp
      simp only [hp, if_pos rfl, List.mem_cons]
      constructor
      · rintro (h | h)
        · exact Or.inl h
        · exact Or.inr (Or.inr h)
      · rintro (h | h | h)
        · exact Or.inl h
        · exact Or.inl (h ▸ hmem)
        · exact Or.inr h
    · rw [Bool.not_eq_true] at hp
      simp only [hp, Bool.false_eq_true, if_false, List.mem_append, List.mem_singleton,
        List.mem_cons]
      tauto

theorem mergePortFiles_aux (fs : List PortFile)
    (h : fs.all (fun pf => pf.ports.isSome) = true) (acc : List String) :
    fs.foldlM
        (fun acc pf =>
          match pf.ports with
          | none => Except.error PortsError.typeError
          | some ps => Except.ok (PublicPorts.dedupAppend acc ps))
        acc =
      Except.ok
        (fs.foldl (fun acc pf => PublicPorts.dedupAppend acc (pf.ports.getD [])) acc) := by
  induction fs generalizing acc with
  | nil => rfl
  | cons pf fs ih =>
    simp only [List.all_cons, Bool.and_eq_true] at h
    obtain ⟨h1, h2⟩ := h
    match hpf : pf.ports with
    | none => rw [hpf] at h1; simp at h1
    | some ps =>
      simp only [List.foldlM_cons, List.foldl_cons, hpf, Option.getD_some]
      show (Except.ok (PublicPorts.dedupAppend acc ps) >>= fun b =>
          List.foldlM _ b fs) = _
      rw [show ∀ (a : List String)
          (g : List String → Except PortsError (List String)),
          (Except.ok a >>= g) = g a from fun a g => rfl]
      exact ih h2 _

theorem mergePortFiles_eq_ok (files : List PortFile)
    (h : files.all (fun pf => pf.ports.isSome) = true) :
    PublicPorts.mergePortFiles files = .ok (PublicPorts.mergedPorts files) := by
  unfold PublicPorts.mergePortFiles PublicPorts.mergedPorts
  exact mergePortFiles_aux files h []

theorem mem_mergedPorts (files : List PortFile) (x : String) :
    x ∈ PublicPorts.mergedPorts files ↔ ∃ pf ∈ files, x ∈ pf.ports.getD [] := by
  unfold PublicPorts.mergedPorts
  have general : ∀ (fs : List PortFile) (acc : List String),
      x ∈ fs.foldl (fun acc pf => PublicPorts.dedupAppend acc (pf.ports.getD [])) acc ↔
        x ∈ acc ∨ ∃ pf ∈ fs, x ∈ pf.ports.getD [] := by
    intro fs
    induction fs with
    | nil => simp
    | cons pf fs ih =>
      intro acc
      simp only [List.foldl_cons]
      rw [ih, mem_dedupAppend]
      simp only [List.mem_cons]
      constructor
      · rintro ((h | h) | h)
        · exact Or.inl h
        · exact Or.inr ⟨pf, by simp, h⟩
        · obtain ⟨q, hq, hx⟩ := h
          exact Or.inr ⟨q, by simp [hq], hx⟩
      · rintro (h | ⟨q, hq, hx⟩)
        · exact Or.inl (Or.inl h)
        · rcases hq with rfl | hq'
          · exact Or.inl (Or.inr hx)
          · exact Or.inr ⟨q, hq', hx⟩
  rw [general]
  simp

/-! ## Directory-conversion lemmas -/

theorem bool_eq_of_iff {a b : Bool} (h : a = true ↔ b = true) : a = b := by
  cases a <;> cases b <;> simp_all

theorem validatePort_eq_some {p q : String} (h : PublicPorts.validatePort p = some q) :
    q = p ∧ (!p.data.isEmpty && p.data.all Char.isDigit) = true := by
  unfold PublicPorts.validatePort at h
  by_cases hc : (!p.data.isEmpty && p.data.all Char.isDigit) = true
  · rw [if_pos hc] at h
    exact ⟨(Option.some_inj.mp h).symm, hc⟩
  · rw [if_neg hc] at h
    exact absurd h (by simp)

theorem parse_snd_valid {e : String} {kv : String × String}
    (h : PublicPorts.parsePortOrPortMapping e = some kv) :
    PublicPorts.validatePort kv.2 = some kv.2 := by
  unfold PublicPorts.parsePortOrPortMapping at h
  by_cases hc : e.data.contains ':' = true
  · rw [if_pos hc] at h
    match hs : jsSplit e ':' with
    | [] => rw [hs] at h; exact absurd h (by simp)
    | [a] => rw [hs] at h; exact absurd h (by simp)
    | a :: p :: rest =>
      rw [hs] at h
      dsimp only at h
      match ha : PublicPorts.validatePortOrAlias a with
      | none => rw [ha] at h; exact absurd h (by simp)
      | some pa =>
        rw [ha] at h
        dsimp only at h
        match hp : PublicPorts.validatePort p with
        | none => rw [hp] at h; exact absurd h (by simp)
        | some port =>
          rw [hp] at h
          dsimp only at h
          obtain rfl := Option.some_inj.mp h
          obtain ⟨rfl, hvalid⟩ := validatePort_eq_some hp
          simpa [PublicPorts.validatePort] using hp
  · rw [if_neg hc] at h
    match hp : PublicPorts.validatePort e with
    | none => rw [hp] at h; exact absurd h (by simp)
    | some port =>
      rw [hp] at h
      dsimp only at h
      obtain rfl := Option.some_inj.mp h
      obtain ⟨rfl, hvalid⟩ := validatePort_eq_some hp
      simpa [PublicPorts.validatePort] using hp

theorem lookup_portAssign_fold_isSome (ports : List String)
    (acc : List (String × String)) (tok : String) :
    (List.lookup tok (ports.foldl PublicPorts.portAssignStep acc)).isSome =
      ((List.lookup tok acc).isSome || ports.any (PublicPorts.entryDeclares tok)) := by
  induction ports generalizing acc with
  | nil => simp
  | cons e ps ih =>
    simp only [List.foldl_cons, List.any_cons]
    match hp : PublicPorts.parsePortOrPortMapping e with
    | none =>
      have hstep : PublicPorts.portAssignStep acc e = acc := by
        unfold PublicPorts.portAssignStep
        rw [hp]
      have hdecl : PublicPorts.entryDeclares tok e = false := by
        unfold PublicPorts.entryDeclares
        rw [hp]
      rw [hstep, hdecl, ih]
      simp
    | some kv =>
      have hstep : PublicPorts.portAssignStep acc e = objAssign acc kv.1 kv.2 := by
        unfold PublicPorts.portAssignStep
        rw [hp]
      have hdecl : PublicPorts.entryDeclares tok e = (kv.1 == tok) := by
        unfold PublicPorts.entryDeclares
        rw [hp]
      rw [hstep, hdecl, ih, objAssign_lookup]
      by_cases htk : tok = kv.1
      · have : (kv.1 == tok) = true := beq_iff_eq.mpr htk.symm
        simp [htk, this]
      · have : (kv.1 == tok) = false := beq_eq_false_iff_ne.mpr (fun h => htk h.symm)
        simp [htk, this]

theorem lookup_portAssign_fold_valid (ports : List String)
    (acc : List (String × String)) (tok v : String)
    (hacc : ∀ k w, List.lookup k acc = some w → PublicPorts.validatePort w = some w)
    (h : List.lookup tok (ports.foldl PublicPorts.portAssignStep acc) = some v) :
    PublicPorts.validatePort v = some v := by
  induction ports generalizing acc with
  | nil => exact hacc tok v h
  | cons e ps ih =>
    simp only [List.foldl_cons] at h
    match hp : PublicPorts.parsePortOrPortMapping e with
    | none =>
      have hstep : PublicPorts.portAssignStep acc e = acc := by
        unfold PublicPorts.portAssignStep
        rw [hp]
      rw [hstep] at h
      exact ih acc hacc h
    | some kv =>
      have hstep : PublicPorts.portAssignStep acc e = objAssign acc kv.1 kv.2 := by
        unfold PublicPorts.portAssignStep
        rw [hp]
      rw [hstep] at h
      refine ih _ ?_ h
      intro k w hw
      rw [objAssign_lookup] at hw
      by_cases hk : k = kv.1
      · rw [if_pos hk] at hw
        obtain rfl := Option.some_inj.mp hw
        exact parse_snd_valid hp
      · rw [if_neg hk] at hw
        exact hacc k w hw

theorem lookup_portFileToPorts_isSome (ports : List String) (tok : String) :
    (List.lookup tok (PublicPorts.portFileToPorts ports)).isSome =
      ports.any (PublicPorts.entryDeclares tok) := by
  unfold PublicPorts.portFileToPorts
  rw [lookup_portAssign_fold_isSome]
  simp

theorem lookup_portFileToPorts_valid (ports : List String) (tok v : String)
    (h : List.lookup tok (PublicPorts.portFileToPorts ports) = some v) :
    PublicPorts.validatePort v = some v := by
  unfold PublicPorts.portFileToPorts at h
  exact lookup_portAssign_fold_valid ports [] tok v (by intro k w hw; simp at hw) h

theorem mergedPorts_any (files : List PortFile) (p : String → Bool) :
    (PublicPorts.mergedPorts files).any p =
      files.any (fun pf => (pf.ports.getD []).any p) := by
  apply bool_eq_of_iff
  simp only [List.any_eq_true]
  constructor
  · rintro ⟨x, hx, hpx⟩
    obtain ⟨pf, hpf, hxpf⟩ := (mem_mergedPorts files x).mp hx
    exact ⟨pf, hpf, x, hxpf, hpx⟩
  · rintro ⟨pf, hpf, x, hxpf, hpx⟩
    exact ⟨x, (mem_mergedPorts files x).mpr ⟨pf, hpf, hxpf⟩, hpx⟩

/-! ## State-level lemmas -/

theorem getPublicPorts_good (st : PublicPorts) (sp : String)
    (hsp : st.searchPath = some sp)
    (hall : (st.portFiles.all fun kv => kv.2.ports.isSome) = true) :
    PublicPorts.getPublicPorts st =
      .ok (PublicPorts.portFileToPorts
        (PublicPorts.mergedPorts (st.portFiles.map (fun kv => kv.2)))) := by
  unfold PublicPorts.getPublicPorts
  rw [hsp]
  have hmap : ((st.portFiles.map (fun kv => kv.2)).all fun pf => pf.ports.isSome) = true := by
    have hgen : ∀ (l : List (String × PortFile)),
        ((l.map (fun kv => kv.2)).all fun pf => pf.ports.isSome) =
          l.all (fun kv => kv.2.ports.isSome) := by
      intro l
      induction l with
      | nil => rfl
      | cons hd tl ih => simp [ih]
    rw [hgen]
    exact hall
  rw [mergePortFiles_eq_ok _ hmap]
  rfl

theorem getPublicPort_good (st : PublicPorts) (sp tok : String)
    (hsp : st.searchPath = some sp)
    (hall : (st.portFiles.all fun kv => kv.2.ports.isSome) = true) :
    PublicPorts.getPublicPort st tok =
      .ok (jsIndexRead (PublicPorts.portFileToPorts
        (PublicPorts.mergedPorts (st.portFiles.map (fun kv => kv.2)))) tok) := by
  unfold PublicPorts.getPublicPort
  rw [getPublicPorts_good st sp hsp hall]
  rfl

theorem jsIndexRead_isSome (l : List (String × String)) (k : String) :
    (jsIndexRead l k).isSome =
      ((List.lookup k l).isSome || objectPrototypeKeys.contains k) := by
  unfold jsIndexRead
  cases h : List.lookup k l with
  | some v => simp
  | none => cases hc : objectPrototypeKeys.contains k <;> simp [hc]

theorem jsIndexRead_str (l : List (String × String)) (k v : String)
    (h : jsIndexRead l k = some (.str v)) : List.lookup k l = some v := by
  unfold jsIndexRead at h
  cases hl : List.lookup k l with
  | some w =>
    rw [hl] at h
    dsimp only at h
    obtain heq := Option.some_inj.mp h
    rw [JsValue.str.injEq] at heq
    rw [heq]
  | none =>
    rw [hl] at h
    dsimp only at h
    by_cases hc : objectPrototypeKeys.contains k = true
    · rw [if_pos hc] at h
      exact absurd (Option.some_inj.mp h) (by simp)
    · rw [if_neg hc] at h
      exact absurd h (by simp)

theorem jsIndexRead_proto (l : List (String × String)) (k n : String)
    (h : jsIndexRead l k = some (.protoMember n)) :
    n = k ∧ List.lookup k l = none ∧ objectPrototypeKeys.contains k = true := by
  unfold jsIndexRead at h
  cases hl : List.lookup k l with
  | some w =>
    rw [hl] at h
    dsimp only at h
    exact absurd (Option.some_inj.mp h) (by simp)
  | none =>
    rw [hl] at h
    dsimp only at h
    by_cases hc : objectPrototypeKeys.contains k = true
    · rw [if_pos hc] at h
      obtain heq := Option.some_inj.mp h
      rw [JsValue.protoMember.injEq] at heq
      exact ⟨heq.symm, rfl, hc⟩
    · rw [if_neg hc] at h
      exact absurd h (by simp)

theorem getPublicPort_ok_str_valid (st : PublicPorts) (tok v : String)
    (h : PublicPorts.getPublicPort st tok = .ok (some (.str v))) :
    PublicPorts.validatePort v = some v := by
  unfold PublicPorts.getPublicPort PublicPorts.getPublicPorts at h
  match hsp : st.searchPath with
  | none => rw [hsp] at h; exact absurd h (by simp [Except.map])
  | some sp =>
    rw [hsp] at h
    dsimp only at h
    match hm : PublicPorts.mergePortFiles (st.portFiles.map (fun kv => kv.2)) with
    | .error e => rw [hm] at h; exact absurd h (by simp [Except.map])
    | .ok m =>
      rw [hm] at h
      have h' : jsIndexRead (PublicPorts.portFileToPorts m) tok = some (.str v) := by
        simpa [Except.map] using h
      exact lookup_portFileToPorts_valid m tok v (jsIndexRead_str _ _ _ h')

theorem getPublicPort_ok_proto (st : PublicPorts) (tok n : String)
    (h : PublicPorts.getPublicPort st tok = .ok (some (.protoMember n))) :
    n = tok ∧ objectPrototypeKeys.contains tok = true := by
  unfold PublicPorts.getPublicPort PublicPorts.getPublicPorts at h
  match hsp : st.searchPath with
  | none => rw [hsp] at h; exact absurd h (by simp [Except.map])
  | some sp =>
    rw [hsp] at h
    dsimp only at h
    match hm : PublicPorts.mergePortFiles (st.portFiles.map (fun kv => kv.2)) with
    | .error e => rw [hm] at h; exact absurd h (by simp [Except.map])
    | .ok m =>
      rw [hm] at h
      have h' : jsIndexRead (PublicPorts.portFileToPorts m) tok =
          some (.protoMember n) := by
        simpa [Except.map] using h
      obtain ⟨h1, h2, h3⟩ := jsIndexRead_proto _ _ _ h'
      exact ⟨h1, h3⟩

theorem lookup_merged_isSome (pfs : List (String × PortFile)) (tok : String) :
    (List.lookup tok (PublicPorts.portFileToPorts
      (PublicPorts.mergedPorts (pfs.map (fun kv => kv.2))))).isSome =
      pfs.any (fun kv => PublicPorts.declaresToken kv.2 tok) := by
  rw [lookup_portFileToPorts_isSome, mergedPorts_any]
  unfold PublicPorts.declaresToken
  have hgen : ∀ (l : List (String × PortFile)),
      ((l.map (fun kv => kv.2)).any fun pf => (pf.ports.getD []).any
        (PublicPorts.entryDeclares tok)) =
        l.any (fun kv => (kv.2.ports.getD []).any (PublicPorts.entryDeclares tok)) := by
    intro l
    induction l with
    | nil => rfl
    | cons hd tl ih => simp [ih]
  rw [hgen]

theorem portIsPublicB_good (st : PublicPorts) (sp tok : String)
    (hsp : st.searchPath = some sp)
    (hall : (st.portFiles.all fun kv => kv.2.ports.isSome) = true) :
    portIsPublicB st tok =
      .ok ((st.portFiles.any (fun kv => PublicPorts.declaresToken kv.2 tok)) ||
        objectPrototypeKeys.contains tok) := by
  unfold portIsPublicB
  rw [getPublicPort_good st sp tok hsp hall]
  have : (jsIndexRead (PublicPorts.portFileToPorts
      (PublicPorts.mergedPorts (st.portFiles.map (fun kv => kv.2)))) tok).isSome =
      ((st.portFiles.any (fun kv => PublicPorts.declaresToken kv.2 tok)) ||
        objectPrototypeKeys.contains tok) := by
    rw [jsIndexRead_isSome, lookup_merged_isSome]
  simp [Except.map, this]

theorem applyEvent_searchPath (st : PublicPorts) (e : WatchEvent)
    (h : e.isStartWatch = false) : (applyEvent st e).searchPath = st.searchPath := by
  match e with
  | .startWatch sp => simp [WatchEvent.isStartWatch] at h
  | .add rp lr =>
    show (PublicPorts.putFile rp lr st).searchPath = st.searchPath
    unfold PublicPorts.putFile
    by_cases hg : (!PublicPorts.didMatchGlob rp) = true
    · rw [if_pos hg]
    · rw [if_neg hg]
      match PublicPorts.getPublicPortsFromFile lr with
      | none => rfl
      | some pf => rfl
  | .change rp lr =>
    show (PublicPorts.putFile rp lr st).searchPath = st.searchPath
    unfold PublicPorts.putFile
    by_cases hg : (!PublicPorts.didMatchGlob rp) = true
    · rw [if_pos hg]
    · rw [if_neg hg]
      match PublicPorts.getPublicPortsFromFile lr with
      | none => rfl
      | some pf => rfl
  | .unlink rp =>
    show (PublicPorts.deleteFile rp st).searchPath = st.searchPath
    unfold PublicPorts.deleteFile
    by_cases hg : (!PublicPorts.didMatchGlob rp) = true
    · rw [if_pos hg]
    · rw [if_neg hg]

theorem applyEvents_searchPath (evs : List WatchEvent) (st : PublicPorts)
    (h : evs.all (fun e => !e.isStartWatch) = true) :
    (applyEvents evs st).searchPath = st.searchPath := by
  induction evs generalizing st with
  | nil => rfl
  | cons e evs ih =>
    simp only [List.all_cons, Bool.and_eq_true, Bool.not_eq_true'] at h
    obtain ⟨h1, h2⟩ := h
    show (applyEvents evs (applyEvent st e)).searchPath = st.searchPath
    rw [ih (applyEvent st e) (by simpa using h2)]
    exact applyEvent_searchPath st e h1

/-! ## Idempotence and deletion lemmas -/

theorem objAssign_hasKey {α : Type} (l : List (String × α)) (k : String) (v : α) :
    ((objAssign l k v).any (fun kv => kv.1 == k)) = true := by
  unfold objAssign
  by_cases hany : (l.any (fun kv => kv.1 == k)) = true
  · rw [if_pos hany]
    obtain ⟨kv, hkv, hk⟩ := List.any_eq_true.mp hany
    refine List.any_eq_true.mpr ⟨(k, v), ?_, by simp⟩
    refine List.mem_map.mpr ⟨kv, hkv, ?_⟩
    rw [if_pos hk]
  · rw [if_neg hany]
    refine List.any_eq_true.mpr ⟨(k, v), by simp, by simp⟩

theorem objAssign_key_entries {α : Type} (l : List (String × α)) (k : String) (v : α) :
    ∀ kv ∈ objAssign l k v, kv.1 = k → kv = (k, v) := by
  unfold objAssign
  by_cases hany : (l.any (fun kv => kv.1 == k)) = true
  · rw [if_pos hany]
    intro kv hkv hk
    obtain ⟨hd, hhd, heq⟩ := List.mem_map.mp hkv
    by_cases hh : hd.1 = k
    · rw [if_pos (beq_iff_eq.mpr hh)] at heq
      exact heq.symm
    · rw [if_neg (by simpa using hh)] at heq
      rw [← heq] at hk
      exact absurd hk hh
  · rw [if_neg hany]
    intro kv hkv hk
    rcases List.mem_append.mp hkv with hin | hsing
    · exfalso
      exact hany (List.any_eq_true.mpr ⟨kv, hin, beq_iff_eq.mpr hk⟩)
    · simpa using hsing

theorem map_replace_id {α : Type} (l : List (String × α)) (k : String) (v : α)
    (h : ∀ kv ∈ l, kv.1 = k → kv = (k, v)) :
    l.map (fun kv => if kv.1 == k then (k, v) else kv) = l := by
  induction l with
  | nil => rfl
  | cons hd tl ih =>
    simp only [List.map_cons]
    by_cases hh : hd.1 = k
    · rw [if_pos (beq_iff_eq.mpr hh), ih (fun kv hkv hk => h kv (List.mem_cons_of_mem _ hkv) hk),
        h hd (by simp) hh]
    · rw [if_neg (by simpa using hh)]
      rw [ih (fun kv hkv hk => h kv (List.mem_cons_of_mem _ hkv) hk)]

theorem objAssign_idem {α : Type} (l : List (String × α)) (k : String) (v : α) :
    objAssign (objAssign l k v) k v = objAssign l k v := by
  have h1 := objAssign_hasKey l k v
  have h2 := objAssign_key_entries l k v
  generalize hL : objAssign l k v = L at h1 h2 ⊢
  unfold objAssign
  rw [if_pos h1]
  exact map_replace_id _ k v h2

theorem objDelete_any {α : Type} (l : List (String × α)) (F : String)
    (p : String × α → Bool) :
    (objDelete l F).any p = l.any (fun kv => (kv.1 != F) && p kv) := by
  unfold objDelete
  induction l with
  | nil => rfl
  | cons hd tl ih =>
    rw [List.filter_cons]
    by_cases hk : (hd.1 != F) = true
    · rw [if_pos hk]
      simp only [List.any_cons, ih, hk, Bool.true_and]
    · rw [if_neg hk]
      have hk' : (hd.1 != F) = false := by
        rw [Bool.not_eq_true] at hk
        exact hk
      simp only [List.any_cons, ih, hk', Bool.false_and, Bool.false_or]

/-! ## Claim theorems -/

/-- C6: querying the port directory (`getPublicPort`) on a `PublicPorts`
instance to which any sequence of watcher file events — but no `startWatch`
call — has been applied raises the explicit
`searchPath not defined -- startWatch not yet called` error, never a silent
empty or `NotFound` result. -/
theorem claim_c6 (evs : List WatchEvent) (tok : String)
    (h : evs.all (fun e => !e.isStartWatch) = true) :
    PublicPorts.getPublicPort (applyEvents evs PublicPorts.init) tok =
      .error .searchPathNotDefined := by
  have hsp : (applyEvents evs PublicPorts.init).searchPath = none :=
    applyEvents_searchPath evs PublicPorts.init h
  unfold PublicPorts.getPublicPort PublicPorts.getPublicPorts
  rw [hsp]
  rfl

/-- Witness for C6 at a concrete event trace (one `add` event, no
`startWatch`). -/
theorem claim_c6_witness :
    ([WatchEvent.add ".brev/ports.yaml" (.ok (.map [("ports", .seq [.str "3000"])]))].all
        (fun e => !e.isStartWatch) = true) ∧
      PublicPorts.getPublicPort
          (applyEvents [WatchEvent.add ".brev/ports.yaml"
            (.ok (.map [("ports", .seq [.str "3000"])]))] PublicPorts.init) "3000" =
        .error .searchPathNotDefined :=
  ⟨by decide, claim_c6 _ "3000" (by decide)⟩

/-- C7: the add/change watcher update (`putFile`) is idempotent — applying
it twice with the identical file contents (hence the identical `yaml.load`
outcome) equals applying it once, and consequently the merged directory
answers every lookup identically. -/
theorem claim_c7 (st : PublicPorts) (rp : String) (lr : Except String Yaml) :
    PublicPorts.putFile rp lr (PublicPorts.putFile rp lr st) =
        PublicPorts.putFile rp lr st ∧
      ∀ tok, PublicPorts.getPublicPort
          (PublicPorts.putFile rp lr (PublicPorts.putFile rp lr st)) tok =
        PublicPorts.getPublicPort (PublicPorts.putFile rp lr st) tok := by
  have hmain : PublicPorts.putFile rp lr (PublicPorts.putFile rp lr st) =
      PublicPorts.putFile rp lr st := by
    by_cases hg : (!PublicPorts.didMatchGlob rp) = true
    · have h1 : ∀ s, PublicPorts.putFile rp lr s = s := by
        intro s
        unfold PublicPorts.putFile
        rw [if_pos hg]
      rw [h1, h1]
    · match hpf : PublicPorts.getPublicPortsFromFile lr with
      | none =>
        have h1 : ∀ s, PublicPorts.putFile rp lr s = s := by
          intro s
          unfold PublicPorts.putFile
          rw [if_neg hg, hpf]
        rw [h1, h1]
      | some pf =>
        have h1 : ∀ s, PublicPorts.putFile rp lr s =
            { s with portFiles := objAssign s.portFiles rp pf } := by
          intro s
          unfold PublicPorts.putFile
          rw [if_neg hg, hpf]
        rw [h1, h1]
        simp [objAssign_idem]
  exact ⟨hmain, fun tok => by rw [hmain]⟩

/-- C10 counterexample: on the reachable started state tracking the single
bare port `3000`, the token `constructor` — declared in no manifest — reads
the inherited `Object.prototype.constructor` through the prototype chain:
`getPublicPort` returns a non-null value that is not a digit string (not a
string at all), refuting the claimed invariant. -/
theorem claim_c10_counterexample :
    PublicPorts.getPublicPort stateBare3000 "constructor" =
        .ok (some (.protoMember "constructor")) ∧
      isDigitStringValue (.protoMember "constructor") = false := by
  refine ⟨by decide, by decide⟩

/-- C10 amended: every *own* value of the merged directory passed port
validation — whenever `getPublicPort` returns a string value, it is a
non-empty all-digit string (and no range bound exists: `99999` is served
as-is) — but a token naming an `Object.prototype` property returns the
inherited non-string member, so the digit-string guarantee holds exactly
for the directory's own entries. -/
theorem claim_c10_amended :
    (∀ (st : PublicPorts) (tok v : String),
        PublicPorts.getPublicPort st tok = .ok (some (.str v)) →
          (!v.data.isEmpty && v.data.all Char.isDigit) = true) ∧
      (∀ (st : PublicPorts) (tok n : String),
        PublicPorts.getPublicPort st tok = .ok (some (.protoMember n)) →
          n = tok ∧ objectPrototypeKeys.contains tok = true) ∧
      PublicPorts.getPublicPort stateBigPort "99999" = .ok (some (.str "99999")) :=
  ⟨fun st tok v h => (validatePort_eq_some (getPublicPort_ok_str_valid st tok v h)).2,
    fun st tok n h => getPublicPort_ok_proto st tok n h,
    by decide⟩

/-- Witness for the amended C10 at a concrete state and token. -/
theorem claim_c10_amended_witness :
    PublicPorts.getPublicPort stateBigPort "abc" = .ok (some (.str "1")) ∧
      (!("1" : String).data.isEmpty && ("1" : String).data.all Char.isDigit) = true :=
  ⟨by decide, claim_c10_amended.1 stateBigPort "abc" "1" (by decide)⟩

/-- C5: for an allowed proxied HTTP request (authenticated, or public
port), the forwarded backend port is the directory's resolved port when one
exists and the raw token itself on `NotFound` (self-mapping fallback);
on a started, well-formed state the directory lookup always yields an
ordinary result (`NotFound` is `.ok none`, not an error); and the lookup is
case-sensitive (the declared alias `abc` resolves while `Abc` does not). -/
theorem claim_c5 :
    (∀ (st : PublicPorts) (req : Req) (norm : String → String) (isAuth : Bool)
        (tok : String) (found : Option JsValue),
        maybeProxy req = some tok →
        PublicPorts.getPublicPort st tok = .ok found →
        (isAuth = true ∨ found.isSome = true) →
        handleHttp st req isAuth norm =
          .ok (.proxyTo (found.getD (.str tok)) req.originalUrl)) ∧
      (∀ (st : PublicPorts) (sp tok : String),
        st.searchPath = some sp →
        (st.portFiles.all fun kv => kv.2.ports.isSome) = true →
        ∃ found, PublicPorts.getPublicPort st tok = .ok found) ∧
      (PublicPorts.getPublicPort stateBigPort "abc" = .ok (some (.str "1")) ∧
        PublicPorts.getPublicPort stateBigPort "Abc" = .ok none) := by
  refine ⟨?_, ?_, by decide, by decide⟩
  · intro st req norm isAuth tok found h1 h2 hallow
    unfold handleHttp
    rw [h1]
    dsimp only
    rw [h2]
    dsimp only
    have hcond : (!isAuth && !found.isSome) = false := by
      rcases hallow with h | h <;> simp [h]
    rw [hcond]
    rfl
  · intro st sp tok hsp hall
    exact ⟨_, getPublicPort_good st sp tok hsp hall⟩

/-- Witness for C5: an authenticated request for the unregistered token
`5000` is forwarded to port `5000` itself. -/
theorem claim_c5_witness :
    maybeProxy (sampleReq "5000.example.com" "/x" "GET" none) = some "5000" ∧
      PublicPorts.getPublicPort stateBigPort "5000" = .ok none ∧
      handleHttp stateBigPort (sampleReq "5000.example.com" "/x" "GET" none) true id =
        .ok (.proxyTo (.str "5000") "/x") :=
  ⟨by decide, by decide,
    claim_c5.1 stateBigPort (sampleReq "5000.example.com" "/x" "GET" none) id true
      "5000" none (by decide) (by decide) (Or.inl rfl)⟩

/-- C9: on the WebSocket-upgrade path the decision is binary — the upgrade
is forwarded exactly when the caller is authenticated or the resolved token
is public, it fails with the unauthorized error otherwise, and no redirect
outcome is ever produced by the WebSocket handler. -/
theorem claim_c9 :
    (∀ (st : PublicPorts) (req : Req) (isAuth : Bool) (tok : String)
        (found : Option JsValue),
        maybeProxy req = some tok →
        PublicPorts.getPublicPort st tok = .ok found →
        handleWs st req isAuth =
          .ok (if isAuth || found.isSome then
            .proxyTo (found.getD (.str tok)) req.originalUrl
          else .unauthorized)) ∧
      (∀ (st : PublicPorts) (req : Req) (isAuth : Bool) (dest : Option String),
        handleWs st req isAuth ≠ .ok (.redirect dest)) := by
  constructor
  · intro st req isAuth tok found h1 h2
    unfold handleWs
    rw [h1]
    dsimp only
    rw [h2]
    dsimp only
    cases isAuth <;> cases hf : found.isSome <;> simp [hf]
  · intro st req isAuth dest h
    unfold handleWs at h
    match hm : maybeProxy req with
    | none =>
      rw [hm] at h
      exact absurd h (by simp)
    | some port =>
      rw [hm] at h
      dsimp only at h
      match hg : PublicPorts.getPublicPort st port with
      | .error e =>
        rw [hg] at h
        exact absurd h (by simp)
      | .ok found =>
        rw [hg] at h
        dsimp only at h
        by_cases hc : (!isAuth && !found.isSome) = true
        · rw [if_pos hc] at h
          exact absurd h (by simp)
        · rw [if_neg hc] at h
          exact absurd h (by simp)

/-- Witness for C9: an unauthenticated upgrade for the private token `5000`
fails with the unauthorized error. -/
theorem claim_c9_witness :
    maybeProxy (sampleReq "5000.example.com" "/x" "GET" none) = some "5000" ∧
      PublicPorts.getPublicPort stateBigPort "5000" = .ok none ∧
      handleWs stateBigPort (sampleReq "5000.example.com" "/x" "GET" none) false =
        .ok .unauthorized :=
  ⟨by decide, by decide,
    claim_c9.1 stateBigPort (sampleReq "5000.example.com" "/x" "GET" none) false
      "5000" none (by decide) (by decide)⟩

theorem string_empty_append (s : String) : "" ++ s = s := by
  cases s
  rfl

/-- C4: for every proxied HTTP request (router matched token `tok`, lookup
answered `found` without throwing) handled at the root mount
(`req.baseUrl = ""`), the authorization decision abstracted from the
handler equals the specification decision table evaluated at the same
inputs: allow when authenticated or public; allow unauthenticated GETs of
static-asset paths; with an Accept containing `text/html`, allow login
paths and redirect every other path to login with target the normalized
request path, omitted exactly when it normalizes to `/`; reject everything
else as unauthorized. -/
theorem claim_c4 (st : PublicPorts) (req : Req) (isAuth : Bool)
    (norm : String → String) (tok : String) (found : Option JsValue)
    (h1 : maybeProxy req = some tok)
    (h2 : PublicPorts.getPublicPort st tok = .ok found)
    (hb : req.baseUrl = "") :
    (handleHttp st req isAuth norm).map decisionOf =
      .ok (gateSpec isAuth found.isSome req.method req.path req.accept norm) := by
  unfold handleHttp gateSpec
  rw [h1]
  dsimp only
  rw [h2]
  dsimp only
  rw [hb, string_empty_append]
  cases isAuth <;> cases hf : found.isSome <;>
    simp only [hf, Bool.not_true, Bool.not_false, Bool.and_true, Bool.and_false,
      Bool.true_and, Bool.false_and, Bool.or_true, Bool.or_false, Bool.true_or,
      Bool.false_or, if_true, if_false, Bool.false_eq_true, Bool.true_eq_false]
  case false.false =>
    by_cases hs : (strStartsWithB req.path "/static/" && req.method == "GET") = true
    · simp [hs, Except.map, decisionOf]
    · simp only [hs, if_false, Bool.false_eq_true]
      by_cases hacc : acceptIncludesHtml req.accept = true
      · simp only [hacc, if_true]
        by_cases hlog : loginPathTest req.path = true
        · simp [hlog, Except.map, decisionOf]
        · simp only [hlog, if_false, Bool.false_eq_true]
          by_cases hroot : (norm req.path == "/") = true
          · have : (norm req.path != "/") = false := by
              simp [bne, hroot]
            simp [this, hroot, Except.map, decisionOf]
          · have : (norm req.path != "/") = true := by
              simp only [bne, hroot]
              rfl
            simp [this, hroot, Except.map, decisionOf]
      · simp [hacc, Except.map, decisionOf]
  all_goals simp [Except.map, decisionOf]

/-- Witness for C4: an unauthenticated XHR-style request (Accept
`application/json`) for a private port is rejected as unauthorized. -/
theorem claim_c4_witness :
    maybeProxy (sampleReq "5000.example.com" "/x" "GET" (some "application/json")) =
        some "5000" ∧
      PublicPorts.getPublicPort stateBigPort "5000" = .ok none ∧
      (handleHttp stateBigPort
            (sampleReq "5000.example.com" "/x" "GET" (some "application/json")) false
            id).map decisionOf =
        .ok (gateSpec false false "GET" "/x" (some "application/json") id) ∧
      gateSpec false false "GET" "/x" (some "application/json") id =
        .rejectUnauthorized :=
  ⟨by decide, by decide,
    claim_c4 stateBigPort (sampleReq "5000.example.com" "/x" "GET" (some "application/json"))
      false id "5000" none (by decide) (by decide) rfl,
    by decide⟩

/-- C1 counterexample: in a started state whose single tracked manifest
contains only the alias-mapping entry `myserver:8080` — so the token
`myserver` occurs only as the alias (left-hand) side of a mapping and never
as a bare port entry — the public-port determination feeding the gate is
nonetheless `true`, and an unauthenticated request for `myserver` is
allowed through and forwarded, contradicting the claim. -/
theorem claim_c1_counterexample :
    stateAliasOnly.portFiles =
        [(".brev/ports.yaml", { version := none, ports := some ["myserver:8080"] })] ∧
      portIsPublicB stateAliasOnly "myserver" = .ok true ∧
      handleHttp stateAliasOnly
          (sampleReq "myserver.example.com" "/" "GET" (some "application/json")) false id =
        .ok (.proxyTo (.str "8080") "/") := by
  refine ⟨by decide, by decide, by decide⟩

/-- C1 amended: the public-port determination is `true` exactly when the
token occurs as the *key* of some valid entry of a tracked document — a
bare port entry or the alias (left-hand) side of an alias mapping — **or**
names a property the `{}`-prototyped directory object inherits from
`Object.prototype` (e.g. `constructor`, which is "public" on every started
state, even with no tracked manifests); only the target (right-hand) port
of a mapping does not by itself become public.  Consequently any token the
bracket read answers — bare port, alias, or prototype property — admits
unauthenticated forwarding. -/
theorem claim_c1_amended :
    (∀ (st : PublicPorts) (sp tok : String),
        st.searchPath = some sp →
        (st.portFiles.all fun kv => kv.2.ports.isSome) = true →
        portIsPublicB st tok =
          .ok ((st.portFiles.any fun kv => PublicPorts.declaresToken kv.2 tok) ||
            objectPrototypeKeys.contains tok)) ∧
      (∀ (st : PublicPorts) (req : Req) (norm : String → String) (tok : String)
          (v : JsValue),
        maybeProxy req = some tok →
        PublicPorts.getPublicPort st tok = .ok (some v) →
        handleHttp st req false norm = .ok (.proxyTo v req.originalUrl)) ∧
      portIsPublicB (PublicPorts.startWatch "w" PublicPorts.init) "constructor" =
        .ok true := by
  refine ⟨?_, ?_, by decide⟩
  · intro st sp tok hsp hall
    exact portIsPublicB_good st sp tok hsp hall
  · intro st req norm tok v h1 h2
    unfold handleHttp
    rw [h1]
    dsimp only
    rw [h2]
    dsimp only
    rfl

/-- Witness for the amended C1 at the alias-only state. -/
theorem claim_c1_amended_witness :
    stateAliasOnly.searchPath = some "w" ∧
      (stateAliasOnly.portFiles.all fun kv => kv.2.ports.isSome) = true ∧
      portIsPublicB stateAliasOnly "myserver" =
        .ok ((stateAliasOnly.portFiles.any fun kv =>
          PublicPorts.declaresToken kv.2 "myserver") ||
          objectPrototypeKeys.contains "myserver") ∧
      ((stateAliasOnly.portFiles.any fun kv =>
        PublicPorts.declaresToken kv.2 "myserver") ||
        objectPrototypeKeys.contains "myserver") = true ∧
      (stateAliasOnly.portFiles.any fun kv =>
        PublicPorts.declaresToken kv.2 "8080") = false :=
  ⟨by decide, by decide,
    claim_c1_amended.1 stateAliasOnly "w" "myserver" (by decide) (by decide),
    by decide, by decide⟩

/-- C2 counterexample: on a schema mismatch (a YAML document that is a bare
string) the file parse yields `null` — not a document with an empty entry
list — and the watcher update leaves the tracked set unchanged, so the
path's previously stored entries (`3000`) remain resolvable, contradicting
the claim. -/
theorem claim_c2_counterexample :
    PublicPorts.getPublicPortsFromFile (.ok (.str "oops")) = none ∧
      PublicPorts.putFile ".brev/ports.yaml" (.ok (.str "oops")) stateBare3000 =
        stateBare3000 ∧
      PublicPorts.getPublicPort
          (PublicPorts.putFile ".brev/ports.yaml" (.ok (.str "oops")) stateBare3000)
          "3000" =
        .ok (some (.str "3000")) := by
  refine ⟨by decide, by decide, by decide⟩

/-- C2 amended: parsing a manifest file *can* fail: a YAML syntax error or
a schema mismatch (including `ports: null` and wrong types) makes
`getPublicPortsFromFile` return `null`, upon which `putFile` skips the
update and the file's previous entries are retained.  A document with no
`ports` field, by contrast, validates successfully to a document *without*
an entry list, and merging a tracked set containing such a document throws
a TypeError that reaches every subsequent directory query. -/
theorem claim_c2_amended :
    (∀ e, PublicPorts.getPublicPortsFromFile (.error e) = none) ∧
      PublicPorts.validatePortFile (.map [("ports", .nullv)]) = none ∧
      PublicPorts.validatePortFile (.map [("ports", .str "8000")]) = none ∧
      (∀ (rp : String) (lr : Except String Yaml) (st : PublicPorts),
        PublicPorts.getPublicPortsFromFile lr = none →
        PublicPorts.putFile rp lr st = st) ∧
      PublicPorts.validatePortFile (.map [("version", .str "1")]) =
        some { version := some "1", ports := none } ∧
      PublicPorts.getPublicPorts
          { portFiles := [("a/.brev/ports.yaml", { version := some "1", ports := none })],
            searchPath := some "w" } =
        .error .typeError := by
  refine ⟨fun e => rfl, by decide, by decide, ?_, by decide, by decide⟩
  intro rp lr st h
  unfold PublicPorts.putFile
  by_cases hg : (!PublicPorts.didMatchGlob rp) = true
  · rw [if_pos hg]
  · rw [if_neg hg, h]

/-- Witness for the amended C2: a concrete malformed load outcome at a
tracked path leaves the state unchanged. -/
theorem claim_c2_amended_witness :
    PublicPorts.getPublicPortsFromFile (.error "YAMLException") = none ∧
      PublicPorts.putFile ".brev/ports.yaml" (.error "YAMLException") stateBare3000 =
        stateBare3000 :=
  ⟨by decide,
    claim_c2_amended.2.2.2.1 ".brev/ports.yaml" (.error "YAMLException") stateBare3000
      (by decide)⟩

/-- C8 counterexample: two tracked manifests both map `myserver` (file `g`
to `8888`, later-inserted file `f` to `9999`).  Before the unlink, `f`'s
mapping wins and `myserver` resolves to `9999`; after `deleteFile` removes
`f`, the token is still declared by `g` and remains resolvable — but to
`8888`, not "the same port as before", contradicting the claim. -/
theorem claim_c8_counterexample :
    PublicPorts.getPublicPort stateTwoFiles "myserver" = .ok (some (.str "9999")) ∧
      PublicPorts.getPublicPort (PublicPorts.deleteFile "f/.brev/ports.yaml" stateTwoFiles)
          "myserver" =
        .ok (some (.str "8888")) ∧
      ("8888" : String) ≠ "9999" := by
  refine ⟨by decide, by decide, by decide⟩

/-- C8 amended: after `deleteFile F` on a started state whose remaining
documents are well-formed, a token declared by no still-tracked document
(in particular one only `F` contributed) resolves to `NotFound` (`.ok
none`) *provided it does not name an `Object.prototype` property*; a token
declared by some other still-tracked document remains resolvable to an own
string entry — though possibly a different target port than before the
deletion, when `F`'s mapping had overridden it; and a token declared by no
still-tracked document that names an `Object.prototype` property (e.g.
`constructor`) still reads the inherited member through the prototype
chain after the unlink. -/
theorem claim_c8_amended (st : PublicPorts) (F tok sp : String)
    (hsp : st.searchPath = some sp)
    (hall : ((objDelete st.portFiles F).all fun kv => kv.2.ports.isSome) = true)
    (hglob : PublicPorts.didMatchGlob F = true) :
    ((st.portFiles.any fun kv =>
        (kv.1 != F) && PublicPorts.declaresToken kv.2 tok) = false →
      objectPrototypeKeys.contains tok = false →
      PublicPorts.getPublicPort (PublicPorts.deleteFile F st) tok = .ok none) ∧
    ((st.portFiles.any fun kv =>
        (kv.1 != F) && PublicPorts.declaresToken kv.2 tok) = true →
      ∃ p, PublicPorts.getPublicPort (PublicPorts.deleteFile F st) tok =
        .ok (some (.str p))) ∧
    ((st.portFiles.any fun kv =>
        (kv.1 != F) && PublicPorts.declaresToken kv.2 tok) = false →
      objectPrototypeKeys.contains tok = true →
      PublicPorts.getPublicPort (PublicPorts.deleteFile F st) tok =
        .ok (some (.protoMember tok))) := by
  have hdel : PublicPorts.deleteFile F st =
      { st with portFiles := objDelete st.portFiles F } := by
    unfold PublicPorts.deleteFile
    rw [if_neg (by simp [hglob])]
  have hsp' : ({ st with portFiles := objDelete st.portFiles F } : PublicPorts).searchPath =
      some sp := hsp
  have hgp := getPublicPort_good { st with portFiles := objDelete st.portFiles F } sp tok
    hsp' hall
  have hiso : (List.lookup tok (PublicPorts.portFileToPorts
      (PublicPorts.mergedPorts ((objDelete st.portFiles F).map (fun kv => kv.2))))).isSome =
      (st.portFiles.any fun kv => (kv.1 != F) && PublicPorts.declaresToken kv.2 tok) := by
    rw [lookup_merged_isSome]
    exact objDelete_any st.portFiles F _
  refine ⟨?_, ?_, ?_⟩
  · intro h0 hproto
    rw [hdel, hgp]
    dsimp only
    rw [h0] at hiso
    have hnone : List.lookup tok (PublicPorts.portFileToPorts
        (PublicPorts.mergedPorts ((objDelete st.portFiles F).map (fun kv => kv.2)))) =
        none := by
      cases hr : List.lookup tok (PublicPorts.portFileToPorts
          (PublicPorts.mergedPorts ((objDelete st.portFiles F).map (fun kv => kv.2)))) with
      | none => rfl
      | some v => rw [hr] at hiso; simp at hiso
    unfold jsIndexRead
    rw [hnone, hproto]
    rfl
  · intro h1
    rw [hdel, hgp]
    dsimp only
    rw [h1] at hiso
    cases hr : List.lookup tok (PublicPorts.portFileToPorts
        (PublicPorts.mergedPorts ((objDelete st.portFiles F).map (fun kv => kv.2)))) with
    | none => rw [hr] at hiso; simp at hiso
    | some v =>
      refine ⟨v, ?_⟩
      unfold jsIndexRead
      rw [hr]
  · intro h0 hproto
    rw [hdel, hgp]
    dsimp only
    rw [h0] at hiso
    have hnone : List.lookup tok (PublicPorts.portFileToPorts
        (PublicPorts.mergedPorts ((objDelete st.portFiles F).map (fun kv => kv.2)))) =
        none := by
      cases hr : List.lookup tok (PublicPorts.portFileToPorts
          (PublicPorts.mergedPorts ((objDelete st.portFiles F).map (fun kv => kv.2)))) with
      | none => rfl
      | some v => rw [hr] at hiso; simp at hiso
    unfold jsIndexRead
    rw [hnone, hproto]
    rfl

/-- Witness for the amended C8 at the two-file state: after deleting `f`'s
manifest, `myserver` (still declared by `g`) remains resolvable, `nosuch`
(declared by nobody, not a prototype property) resolves to `NotFound`, and
`constructor` (declared by nobody) still reads the inherited prototype
member. -/
theorem claim_c8_amended_witness :
    (stateTwoFiles.portFiles.any fun kv =>
        (kv.1 != "f/.brev/ports.yaml") &&
          PublicPorts.declaresToken kv.2 "myserver") = true ∧
      (∃ p, PublicPorts.getPublicPort
          (PublicPorts.deleteFile "f/.brev/ports.yaml" stateTwoFiles) "myserver" =
        .ok (some (.str p))) ∧
      (stateTwoFiles.portFiles.any fun kv =>
        (kv.1 != "f/.brev/ports.yaml") &&
          PublicPorts.declaresToken kv.2 "nosuch") = false ∧
      PublicPorts.getPublicPort
          (PublicPorts.deleteFile "f/.brev/ports.yaml" stateTwoFiles) "nosuch" =
        .ok none ∧
      PublicPorts.getPublicPort
          (PublicPorts.deleteFile "f/.brev/ports.yaml" stateTwoFiles) "constructor" =
        .ok (some (.protoMember "constructor")) :=
  ⟨by decide,
    (claim_c8_amended stateTwoFiles "f/.brev/ports.yaml" "myserver" "w" (by decide)
      (by decide) (by decide)).2.1 (by decide),
    by decide,
    (claim_c8_amended stateTwoFiles "f/.brev/ports.yaml" "nosuch" "w" (by decide)
      (by decide) (by decide)).1 (by decide) (by decide),
    (claim_c8_amended stateTwoFiles "f/.brev/ports.yaml" "constructor" "w" (by decide)
      (by decide) (by decide)).2.2 (by decide) (by decide)⟩

theorem jsSplit_no_sep (s : String) (c : Char) (h : c ∉ s.data) : jsSplit s c = [s] := by
  unfold jsSplit
  show (s.data.splitOnP (· == c)).map String.mk = [s]
  rw [List.splitOnP_eq_single _ _ (fun x hx => by
    simp only [beq_iff_eq]
    intro heq
    exact h (heq ▸ hx))]
  rfl

theorem jsSplit_append_sep (tok d : String) (c : Char) (h : c ∉ tok.data) :
    jsSplit (tok ++ String.mk [c] ++ d) c = tok :: jsSplit d c := by
  have hostdata : (tok ++ String.mk [c] ++ d).data = tok.data ++ c :: d.data := by
    rw [String.data_append, String.data_append]
    simp
  unfold jsSplit
  rw [hostdata]
  show ((tok.data ++ c :: d.data).splitOnP (· == c)).map String.mk = _
  rw [List.splitOnP_first _ _ (fun x hx => by
    simp only [beq_iff_eq]
    intro heq
    exact h (heq ▸ hx)) c (by simp) d.data]
  rfl

theorem jsJoin_jsSplit (d : String) (c : Char) : jsJoin (jsSplit d c) c = d := by
  unfold jsJoin jsSplit
  rw [List.map_map]
  have : (String.data ∘ String.mk) = id := by
    funext l
    rfl
  rw [this, List.map_id]
  show String.mk ([c].intercalate (d.data.splitOn c)) = d
  rw [List.intercalate_splitOn d.data c]

theorem ite_some_iff (port pd : String) (domains : List String) (tok : String) :
    (if (port == "" || !domains.contains pd) = true then none else some port) =
        some tok ↔
      (port = tok ∧ tok ≠ "" ∧ domains.contains pd = true) := by
  by_cases hcond : (port == "" || !domains.contains pd) = true
  · rw [if_pos hcond]
    constructor
    · intro h
      exact absurd h (by simp)
    · rintro ⟨rfl, hne, hcont⟩
      rw [Bool.or_eq_true] at hcond
      rcases hcond with h | h
      · exact absurd (beq_iff_eq.mp h) hne
      · rw [hcont] at h
        exact absurd h (by simp)
  · rw [if_neg hcond]
    rw [Bool.or_eq_true] at hcond
    push_neg at hcond
    obtain ⟨h1, h2⟩ := hcond
    constructor
    · intro h
      obtain rfl := Option.some_inj.mp h
      refine ⟨rfl, fun he => h1 (by rw [he]; rfl), ?_⟩
      simpa using h2
    · rintro ⟨rfl, hne, hcont⟩
      rfl

/-- C3 counterexample: with configured suffix `example.com` and separator
`.`, the host `.example.com` has an empty first segment; the remaining
segments rejoined (`example.com`) exactly equal a configured suffix, yet
the router returns no token — the claimed "if and only if" fails in the
right-to-left direction. -/
theorem claim_c3_counterexample :
    maybeProxy (sampleReq ".example.com" "/" "GET" none) = none ∧
      jsJoin ((jsSplit ((jsSplit ".example.com" ':').headD "") '.').tail) '.' =
        "example.com" ∧
      (sampleReq ".example.com" "/" "GET" none).proxyDomain.contains "example.com" =
        true := by
  refine ⟨by decide, by decide, by decide⟩
/-- C3 amended: the router returns the first separator-separated segment of
the port-stripped host as the token **iff** that first segment is non-empty
and the remaining segments rejoined with the separator exactly equal one of
the configured proxy domains; conversely any host built as
`tok ++ sep ++ suffix` with `tok` non-empty, separator-free and
colon-free and `suffix` a configured domain yields exactly `tok`; and the
claim's concrete examples hold (`8080.example.com` ↦ `8080`;
`8080.sub.example.com` and `sub.8080.example.com` ↦ no match). -/
theorem claim_c3_amended :
    (∀ (req : Req) (tok : String),
        maybeProxy req = some tok ↔
          ((jsSplit ((jsSplit (req.host.getD "") ':').headD "")
              (if req.proxyPortSeparator == "dash" then '-' else '.')).headD "" = tok ∧
            tok ≠ "" ∧
            req.proxyDomain.contains
              (jsJoin ((jsSplit ((jsSplit (req.host.getD "") ':').headD "")
                (if req.proxyPortSeparator == "dash" then '-' else '.')).tail)
                (if req.proxyPortSeparator == "dash" then '-' else '.')) = true)) ∧
      (∀ (tok d pa bu ou m : String) (acc : Option String) (sepArg : String) (c : Char)
          (domains : List String),
          (if sepArg == "dash" then '-' else '.') = c →
          tok ≠ "" →
          c ∉ tok.data →
          (':' : Char) ∉ tok.data →
          (':' : Char) ∉ d.data →
          domains.contains d = true →
          maybeProxy
              { host := some (tok ++ String.mk [c] ++ d), path := pa, baseUrl := bu,
                originalUrl := ou, method := m, accept := acc,
                proxyPortSeparator := sepArg, proxyDomain := domains } =
            some tok) ∧
      (maybeProxy (sampleReq "8080.example.com" "/" "GET" none) = some "8080" ∧
        maybeProxy (sampleReq "8080.sub.example.com" "/" "GET" none) = none ∧
        maybeProxy (sampleReq "sub.8080.example.com" "/" "GET" none) = none) := by
  refine ⟨?_, ?_, by decide, by decide, by decide⟩
  · intro req tok
    exact ite_some_iff _ _ _ _
  · intro tok d pa bu ou m acc sepArg c domains hc htok hsep hcol1 hcol2 hd
    have hcne : (c : Char) ≠ ':' := by
      rw [← hc]
      by_cases hsd : (sepArg == "dash") = true
      · rw [if_pos hsd]
        decide
      · rw [if_neg hsd]
        decide
    have hnocolon : (':' : Char) ∉ (tok ++ String.mk [c] ++ d).data := by
      rw [String.data_append, String.data_append]
      intro hmem
      rcases List.mem_append.mp hmem with hmem1 | hmem2
      · rcases List.mem_append.mp hmem1 with hmem1a | hmem1b
        · exact hcol1 hmem1a
        · have : (':' : Char) = c := by simpa using hmem1b
          exact hcne this.symm
      · exact hcol2 hmem2
    refine (ite_some_iff _ _ _ _).mpr ?_
    dsimp only
    rw [show ((some (tok ++ String.mk [c] ++ d)).getD "") =
      tok ++ String.mk [c] ++ d from rfl]
    rw [hc, jsSplit_no_sep _ _ hnocolon]
    rw [show ([tok ++ String.mk [c] ++ d].headD "") = tok ++ String.mk [c] ++ d from rfl]
    rw [jsSplit_append_sep tok d c hsep]
    rw [show ((tok :: jsSplit d c).headD "") = tok from rfl,
      show ((tok :: jsSplit d c).tail) = jsSplit d c from rfl,
      jsJoin_jsSplit d c]
    exact ⟨rfl, htok, hd⟩

/-- Witness for the amended C3: the general characterization instantiated
at the concrete host `8080.example.com` with suffix `example.com`. -/
theorem claim_c3_amended_witness :
    maybeProxy
        { host := some ("8080" ++ String.mk ['.'] ++ "example.com"), path := "/",
          baseUrl := "", originalUrl := "/", method := "GET", accept := none,
          proxyPortSeparator := "dot", proxyDomain := ["example.com"] } =
      some "8080" :=
  claim_c3_amended.2.1 "8080" "example.com" "/" "" "/" "GET" none "dot" '.'
    ["example.com"] (by decide) (by decide) (by decide) (by decide) (by decide)
    (by decide)
